import Mathlib

/-!
Verification of the `forkwork` command-line tool (src/forkwork/forkwork.py)
against its specification.

The tool analyses the forks of a GitHub repository.  Two subcommands:
* `fnm`  — lists, per fork, the commits whose message does not appear among
  the upstream repository's commit messages (lines 58-75 of the source);
* `top`  — ranks forks by a chosen metric, truncates to a row limit,
  humanizes the two date columns and renders a table (lines 78-158).

The embedding below is a shallow model of the Python source.  Remote API
results that the code obtains by calling `github3` methods are modelled as
fields of the `Fork` structure carrying `Except ApiError` values: `Except.ok`
is a successful response, `Except.error ApiError.notFound` models
`github3.exceptions.NotFoundError` (the only exception the code catches) and
`Except.error ApiError.other` models every other exception (auth failure,
network failure, ...).

Printing is modelled as emitting values into an output list for the calls
that are well formed — the line-75 not-found notice of `fnm` and everything
`top` prints.  The two `click.echo` calls of lines 71 and 73, however, pass
two extra positional arguments; `click.echo`'s signature is
`echo(message=None, file=None, nl=True, err=False, color=None)`, so the
second positional is bound to `file` and the third to `nl`, and a plain
string has no `write` attribute.  Each of those calls therefore raises
`AttributeError` before writing anything, and the surrounding
`except github3.exceptions.NotFoundError` clause does not catch it.  The
`fnm` model records this as a crash outcome (`FnmOutcome.echoCrash`) at the
first commit the command attempts to report.
-/

/-- Errors an API call can raise.  `notFound` models
`github3.exceptions.NotFoundError`; `other` models any other exception. -/
inductive ApiError
  | notFound
  | other
deriving DecidableEq, Repr

/-- A commit as the code uses it: only `message` and `html_url` are read
(lines 68 and 73). -/
structure Commit where
  message : String
  html_url : String
deriving DecidableEq, Repr

/-- A fork, with the attributes the code reads directly from the fork listing
(lines 69, 71, 118-123 and 134) together with the results of the secondary
API calls the code may issue for it:
* `commitsResult` models `fork.commits()` (line 67),
* `branchesResult` models `fork.branches()` (line 128),
* `subscribersResult` models
  `repo_ctx.gh.repository(fork.owner.login, fork.name).subscribers_count`
  (lines 134-135),
* `contributorsResult` models the list of `contributions_count` values of
  `fork.contributors()` (line 141). -/
structure Fork where
  owner_login : String
  name : String
  html_url : String
  stargazers_count : Int
  forks_count : Int
  open_issues_count : Int
  updated_at : String
  pushed_at : String
  commitsResult : Except ApiError (List Commit)
  branchesResult : Except ApiError (List String)
  subscribersResult : Except ApiError Int
  contributorsResult : Except ApiError (List Int)

/-! ## The `fnm` command (lines 58-75) -/

/-- One line `fnm` prints, or was meant to print: the owner/URL header of
line 71, a reported commit of line 73, and the not-found notice of line 75.
Only the notice is ever printed by the program as written: the echo calls of
lines 71 and 73 raise instead of printing (see `fnmCommitsLoop`), so the
theorems below show that `header` and `entry` lines never occur in the real
output. -/
inductive FnmLine
  | header (login : String) (url : String)
  | entry (index : Nat) (message : String) (url : String)
  | notFound (url : String)
deriving DecidableEq, Repr

/-- How a run of the `fnm` fork loop ends. -/
inductive FnmOutcome
  /-- the loop over the forks finished -/
  | completed
  /-- a non-404 exception from `fork.commits()`, which no `except` clause
  catches -/
  | apiOther
  /-- the `AttributeError` raised by the malformed `click.echo` calls of
  lines 71/73, likewise uncaught -/
  | echoCrash
deriving DecidableEq, Repr

/-- The inner loop of `fnm` (lines 67-73) as it executes: iterate over one
fork's commits; a commit whose message is in `repoMessage` is passed over.
A commit whose message is missing reaches a `click.echo` call — line 71 when
the owner header is due (always so for the first reported commit, because
`old_login` is only assigned on line 72, after that echo), line 73 otherwise.
Both calls pass two extra positional arguments, which `click.echo` binds to
`file` and `nl`; a plain string has no `write` attribute, so either call
raises `AttributeError` before writing anything.  The loop therefore prints
nothing and aborts at the first commit whose message is missing; the
enumeration index and the login state influence only which of the two echoes
raises. -/
def fnmCommitsLoop (repoMessage : List String) : List Commit → FnmOutcome
  | [] => FnmOutcome.completed
  | c :: cs =>
    if c.message ∈ repoMessage then fnmCommitsLoop repoMessage cs
    else FnmOutcome.echoCrash

/-- The fork loop of `fnm` (lines 63-75): a fork whose `fork.commits()`
raises `NotFoundError` is skipped after printing the line-75 notice (that
echo is well formed: a single positional argument); any other exception from
`fork.commits()` aborts the run, as does the echo `AttributeError` of a fork
with a reportable commit — the `except NotFoundError` clause catches
neither.  Returns the lines actually printed together with the outcome. -/
def fnmFold (repoMessage : List String) : List Fork → List FnmLine × FnmOutcome
  | [] => ([], FnmOutcome.completed)
  | fork :: rest =>
    match fork.commitsResult with
    | Except.error ApiError.notFound =>
      let r := fnmFold repoMessage rest
      (FnmLine.notFound fork.html_url :: r.1, r.2)
    | Except.error ApiError.other => ([], FnmOutcome.apiOther)
    | Except.ok commits =>
      match fnmCommitsLoop repoMessage commits with
      | FnmOutcome.completed => fnmFold repoMessage rest
      | outcome => ([], outcome)

/-- The `fnm` command (lines 60-75), given the upstream repository's commits
and the fork list: build the upstream message list (line 62) and run the
fork loop.  The result is the list of lines the run prints together with how
it ends. -/
def fnm (repoCommits : List Commit) (forks : List Fork) :
    List FnmLine × FnmOutcome :=
  fnmFold (repoCommits.map Commit.message) forks

/-- The commit entries among a list of output lines, as
(index, message, url) triples. -/
def entriesOf (lines : List FnmLine) : List (Nat × String × String) :=
  lines.filterMap fun l =>
    match l with
    | FnmLine.entry i m u => some (i, m, u)
    | _ => none

/-- How many output entries carry the message `m`. -/
def countEntriesWithMessage (lines : List FnmLine) (m : String) : Nat :=
  (entriesOf lines).countP (fun p => p.2.1 = m)

/-- Lexicographic comparison of lists of naturals. -/
def natListLeB : List Nat → List Nat → Bool
  | [], _ => true
  | _ :: _, [] => false
  | a :: as, b :: bs =>
    if a < b then true else if b < a then false else natListLeB as bs

theorem natListLeB_trans : ∀ as bs cs, natListLeB as bs = true →
    natListLeB bs cs = true → natListLeB as cs = true
  | [], _, _, _, _ => rfl
  | _ :: _, [], _, h1, _ => by simp [natListLeB] at h1
  | _ :: _, _ :: _, [], _, h2 => by simp [natListLeB] at h2
  | a :: as, b :: bs, c :: cs, h1, h2 => by
    simp only [natListLeB] at h1 h2 ⊢
    split_ifs at * <;> first
      | rfl
      | omega
      | exact natListLeB_trans as bs cs h1 h2

theorem natListLeB_total : ∀ as bs, (natListLeB as bs || natListLeB bs as) = true
  | [], _ => by simp [natListLeB]
  | _ :: _, [] => by simp [natListLeB]
  | a :: as, b :: bs => by
    simp only [natListLeB, Bool.or_eq_true] at *
    split_ifs <;> first
      | simp
      | omega
      | simpa [Bool.or_eq_true] using natListLeB_total as bs

/-- Boolean lexicographic comparison of strings by Unicode code point: the
order Python uses when comparing the string-valued fields `updated_at` and
`pushed_at` during `sorted(...)`. -/
def strLeB (a b : String) : Bool :=
  natListLeB (a.data.map Char.toNat) (b.data.map Char.toNat)

theorem strLeB_trans {a b c : String} (h1 : strLeB a b = true)
    (h2 : strLeB b c = true) : strLeB a c = true :=
  natListLeB_trans _ _ _ h1 h2

theorem strLeB_total (a b : String) : (strLeB a b || strLeB b a) = true :=
  natListLeB_total _ _

/-! ## The `top` command (lines 78-158) -/

/-- The sort keys selectable by the `top` command's flags (lines 80-90);
constructor names follow the `flag_value` strings. -/
inductive SortKey
  | stargazers_count
  | forks_count
  | open_issues_count
  | updated_at
  | pushed_at
  | watchers
  | commits
  | branches
deriving DecidableEq, Repr

/-- The `flag_value` string attached to each sort flag (lines 80-90): this is
the value of the Python variable `sort` inside `top`. -/
def sortFlag : SortKey → String
  | SortKey.stargazers_count => "stargazers_count"
  | SortKey.forks_count => "forks_count"
  | SortKey.open_issues_count => "open_issues_count"
  | SortKey.updated_at => "updated_at"
  | SortKey.pushed_at => "pushed_at"
  | SortKey.watchers => "watchers"
  | SortKey.commits => "commits"
  | SortKey.branches => "branches"

/-- The membership test of line 109: `sort in {"branches", "commits",
"watchers"}`, the "slow" keys requiring one extra API request per fork. -/
def isSlow (sort : SortKey) : Bool :=
  sortFlag sort ∈ ["branches", "commits", "watchers"]

/-- One row of the `top` table: the `Repo` namedtuple of lines 112-114.  The
six base fields are `def_prop` (lines 117-124); `appended` is the extra
metric value appended for a slow sort key (lines 128, 135, 141), `none` when
the namedtuple has only the six base fields. -/
structure RepoRow where
  html_url : String
  stargazers_count : Int
  forks_count : Int
  open_issues_count : Int
  updated_at : String
  pushed_at : String
  appended : Option Int
deriving DecidableEq, Repr

/-- The `def_prop` list of lines 117-124 extended with the optional slow
metric: builds the `Repo` namedtuple from a fork's base attributes. -/
def defProp (fork : Fork) (appended : Option Int) : RepoRow :=
  { html_url := fork.html_url
    stargazers_count := fork.stargazers_count
    forks_count := fork.forks_count
    open_issues_count := fork.open_issues_count
    updated_at := fork.updated_at
    pushed_at := fork.pushed_at
    appended := appended }

/-- The value a sort key selects from a row, as `attrgetter(sort)` does on
line 148.  Count-valued keys give integers; the two date keys give the raw
date strings; the three slow keys read the appended metric. -/
inductive KeyVal
  | int (n : Int)
  | str (s : String)
deriving DecidableEq, Repr

/-- Comparison on key values.  Within one run every row yields the same
`KeyVal` constructor, exactly as every Python comparison during the sort is
int-int or str-str; the cross-constructor cases only make the relation total.
-/
def KeyVal.le : KeyVal → KeyVal → Bool
  | KeyVal.int m, KeyVal.int n => decide (m ≤ n)
  | KeyVal.int _, KeyVal.str _ => true
  | KeyVal.str _, KeyVal.int _ => false
  | KeyVal.str a, KeyVal.str b => strLeB a b

/-- `attrgetter(sort)` (line 148) on a row. -/
def keyVal (sort : SortKey) (r : RepoRow) : KeyVal :=
  match sort with
  | SortKey.stargazers_count => KeyVal.int r.stargazers_count
  | SortKey.forks_count => KeyVal.int r.forks_count
  | SortKey.open_issues_count => KeyVal.int r.open_issues_count
  | SortKey.updated_at => KeyVal.str r.updated_at
  | SortKey.pushed_at => KeyVal.str r.pushed_at
  | SortKey.watchers => KeyVal.int (r.appended.getD 0)
  | SortKey.commits => KeyVal.int (r.appended.getD 0)
  | SortKey.branches => KeyVal.int (r.appended.getD 0)

/-- The relation under which a descending stable sort places `a` before `b`:
`b`'s key does not exceed `a`'s.  `sorted(..., key=attrgetter(sort),
reverse=True)` (line 148) is a stable sort w.r.t. this relation. -/
def keyGeB (sort : SortKey) (a b : RepoRow) : Bool :=
  KeyVal.le (keyVal sort b) (keyVal sort a)

/-- The per-fork body of the loop of lines 116-146: builds the row for one
fork.  For a slow sort key the required secondary API call may fail: a
`NotFoundError` is caught, the notice of lines 131/138/144 is printed and the
fork is skipped (`Except.ok none`); any other exception propagates.  For the
remaining keys the row is appended unconditionally (lines 145-146). -/
def buildRow (sort : SortKey) (fork : Fork) : Except ApiError (Option RepoRow) :=
  match sort with
  | SortKey.branches =>
    match fork.branchesResult with
    | Except.ok bs => Except.ok (some (defProp fork (some (bs.length : Int))))
    | Except.error ApiError.notFound => Except.ok none
    | Except.error ApiError.other => Except.error ApiError.other
  | SortKey.watchers =>
    match fork.subscribersResult with
    | Except.ok n => Except.ok (some (defProp fork (some n)))
    | Except.error ApiError.notFound => Except.ok none
    | Except.error ApiError.other => Except.error ApiError.other
  | SortKey.commits =>
    match fork.contributorsResult with
    | Except.ok cs => Except.ok (some (defProp fork (some cs.sum)))
    | Except.error ApiError.notFound => Except.ok none
    | Except.error ApiError.other => Except.error ApiError.other
  | _ => Except.ok (some (defProp fork none))

/-- The not-found notice printed by `top` (lines 131, 138, 144). -/
def topNotice (fork : Fork) : String :=
  "\nRepository " ++ fork.html_url ++ " not found"

/-- The fork loop of lines 116-146: collects the rows (`repos`) in fork-list
order together with the printed not-found notices; a non-`NotFoundError`
exception aborts the command. -/
def topCollect (sort : SortKey) :
    List Fork → Except ApiError (List RepoRow × List String)
  | [] => Except.ok ([], [])
  | fork :: rest =>
    match buildRow sort fork with
    | Except.error e => Except.error e
    | Except.ok none =>
      (topCollect sort rest).map (fun p => (p.1, topNotice fork :: p.2))
    | Except.ok (some r) =>
      (topCollect sort rest).map (fun p => (r :: p.1, p.2))

/-- Line 148: `sorted(repos, key=attrgetter(sort), reverse=True)` — a stable
sort placing larger key values first. -/
def sortDesc (sort : SortKey) (repos : List RepoRow) : List RepoRow :=
  repos.mergeSort (keyGeB sort)

/-- Line 155: `fork._replace(updated_at=human_updated_at,
pushed_at=human_pushed_at)`.  The argument `h` abstracts the
pendulum-based date-to-relative-phrase computation of lines 151-154, which
depends only on the date string (and the wall clock). -/
def humanizeRow (h : String → String) (r : RepoRow) : RepoRow :=
  { r with updated_at := h r.updated_at, pushed_at := h r.pushed_at }

/-- The default of the `--rows` option (line 79). -/
def defaultRows : Nat := 10

/-- The `top` command (lines 92-158) up to the final `tabulate` rendering:
collect the rows, sort descending, truncate to `rows` (line 150), humanize
the two date fields of each remaining row (lines 150-155).  Returns the
table rows in render order together with the printed notices. -/
def topOutput (sort : SortKey) (rows : Nat) (h : String → String)
    (forks : List Fork) : Except ApiError (List RepoRow × List String) :=
  (topCollect sort forks).map
    (fun p => (((sortDesc sort p.1).take rows).map (humanizeRow h), p.2))

/-- Python's `str.capitalize`: first character upper-cased, the rest
lower-cased (line 110). -/
def capitalize (s : String) : String :=
  match s.data with
  | [] => ""
  | c :: cs => String.mk (c.toUpper :: cs.map Char.toLower)

/-- The fixed column headers (lines 94-104). -/
def fixedHeaders : List String :=
  ["URL", "Stars", "Forks", "Open Issues", "Last update", "Pushed At"]

/-- The header list rendered by `top` (lines 104-111): the six fixed headers,
plus `sort.capitalize()` appended when the key is slow. -/
def topHeaders (sort : SortKey) : List String :=
  if isSlow sort then fixedHeaders ++ [capitalize (sortFlag sort)]
  else fixedHeaders

/-! ## The `cli` group callback (lines 33-55) -/

/-- The upstream repository object returned by `gh.repository(login, repo)`
(line 50), with the two collections the commands use. -/
structure GhRepo where
  commitsList : List Commit
  forksList : List Fork

/-- What the code stores in the `repository` slot of the `RepoCtx`
namedtuple.  The slot is dynamically typed in Python: it could hold the
repo-name string or the fetched repository object. -/
inductive RepoField
  | nameStr (s : String)
  | repoObj (r : GhRepo)

/-- The shared context `ctx.obj` built on lines 54-55. -/
structure RepoCtx where
  repository : RepoField
  forks : List Fork

/-- Lines 49-55 of `cli`: split the URL path into `login` and `repo`, fetch
`repository = gh.repository(login, repo)` and its forks, and build
`ctx.obj = RepoCtx(repo, forks, gh)` — note the code passes the *string*
`repo`, not the fetched `repository` object, into the `repository` slot. -/
def cliBuildCtx (gh : String → String → GhRepo) (login repo : String) :
    RepoCtx :=
  let repository := gh login repo
  let forks := repository.forksList
  { repository := RepoField.nameStr repo, forks := forks }

/-- `repo_ctx.repository.commits()` as executed on line 61: attribute access
on whatever the context holds.  A string has no `commits` attribute, so the
call only succeeds on a repository object (`none` models the
`AttributeError`). -/
def ctxRepositoryCommits : RepoField → Option (List Commit)
  | RepoField.nameStr _ => none
  | RepoField.repoObj r => some r.commitsList

/-- The result of the one secondary API call a slow sort key issues for a
fork (the metric value on success), `none` for the fast keys, which issue no
secondary call. -/
def slowResult (sort : SortKey) (fork : Fork) : Option (Except ApiError Int) :=
  match sort with
  | SortKey.branches =>
    some (fork.branchesResult.map (fun bs => (bs.length : Int)))
  | SortKey.watchers => some fork.subscribersResult
  | SortKey.commits => some (fork.contributorsResult.map List.sum)
  | _ => none

/-- `buildRow` in terms of the secondary call's outcome: no secondary call
gives the base row; a successful call appends its metric; `NotFoundError`
skips the fork; any other error propagates. -/
theorem buildRow_eq (sort : SortKey) (fork : Fork) :
    buildRow sort fork =
      match slowResult sort fork with
      | none => Except.ok (some (defProp fork none))
      | some (Except.ok n) => Except.ok (some (defProp fork (some n)))
      | some (Except.error ApiError.notFound) => Except.ok none
      | some (Except.error ApiError.other) => Except.error ApiError.other := by
  cases sort
  case branches =>
    cases hb : fork.branchesResult with
    | ok bs => simp [buildRow, slowResult, hb, Except.map]
    | error e => cases e <;> simp [buildRow, slowResult, hb, Except.map]
  case watchers =>
    cases hb : fork.subscribersResult with
    | ok n => simp [buildRow, slowResult, hb]
    | error e => cases e <;> simp [buildRow, slowResult, hb]
  case commits =>
    cases hb : fork.contributorsResult with
    | ok cs => simp [buildRow, slowResult, hb, Except.map]
    | error e => cases e <;> simp [buildRow, slowResult, hb, Except.map]
  all_goals rfl

/-! ## The descending sort relation is reflexive, transitive and total -/

theorem natListLeB_refl : ∀ as, natListLeB as as = true
  | [] => rfl
  | a :: as => by simp [natListLeB, natListLeB_refl as]

theorem strLeB_refl (s : String) : strLeB s s = true :=
  natListLeB_refl _

theorem KeyVal.le_refl : ∀ v : KeyVal, KeyVal.le v v = true
  | KeyVal.int n => by simp [KeyVal.le]
  | KeyVal.str s => strLeB_refl s

theorem KeyVal.le_trans' : ∀ {a b c : KeyVal},
    KeyVal.le a b = true → KeyVal.le b c = true → KeyVal.le a c = true := by
  intro a b c h1 h2
  cases a <;> cases b <;> cases c <;>
    simp only [KeyVal.le, decide_eq_true_eq, Bool.false_eq_true] at h1 h2 ⊢ <;>
    first
      | trivial
      | exact h1.elim
      | exact h2.elim
      | omega
      | exact strLeB_trans h1 h2

theorem KeyVal.le_total' : ∀ a b : KeyVal,
    (KeyVal.le a b || KeyVal.le b a) = true := by
  intro a b
  cases a <;> cases b <;>
    simp only [KeyVal.le, Bool.or_eq_true, decide_eq_true_eq] <;>
    first
      | simp
      | omega
      | (rw [← Bool.or_eq_true]; exact strLeB_total ..)

theorem keyGeB_trans (sort : SortKey) :
    ∀ (a b c : RepoRow), keyGeB sort a b → keyGeB sort b c → keyGeB sort a c :=
  fun _ _ _ h1 h2 => KeyVal.le_trans' h2 h1

theorem keyGeB_total (sort : SortKey) :
    ∀ (a b : RepoRow), keyGeB sort a b || keyGeB sort b a :=
  fun a b => KeyVal.le_total' (keyVal sort b) (keyVal sort a)

/-- The sorted list produced on line 148 is pairwise descending in the
chosen key. -/
theorem sortDesc_pairwise (sort : SortKey) (repos : List RepoRow) :
    List.Pairwise (fun a b => keyGeB sort a b = true) (sortDesc sort repos) :=
  List.sorted_mergeSort (keyGeB_trans sort) (keyGeB_total sort) repos

/-! ## Concrete data used to instantiate theorems -/

/-- An upstream history with the single message `"m"`. -/
def exUpstream : List Commit := [{ message := "m", html_url := "u0" }]

/-- A fork with two commits carrying the same message `"x"`, absent from
`exUpstream`. -/
def exForkDup : Fork :=
  { owner_login := "alice"
    name := "proj"
    html_url := "https://github.com/alice/proj"
    stargazers_count := 3
    forks_count := 1
    open_issues_count := 0
    updated_at := "2020-01-02T00:00:00Z"
    pushed_at := "2020-01-03T00:00:00Z"
    commitsResult := Except.ok
      [{ message := "x", html_url := "u1" }, { message := "x", html_url := "u2" }]
    branchesResult := Except.ok ["main"]
    subscribersResult := Except.ok 5
    contributorsResult := Except.ok [2, 3] }

/-- A fork every API call about which answers 404: the remote profile no
longer exists. -/
def exBadFork : Fork :=
  { owner_login := "bob"
    name := "gone"
    html_url := "https://github.com/bob/gone"
    stargazers_count := 9
    forks_count := 2
    open_issues_count := 1
    updated_at := "2021-05-05T00:00:00Z"
    pushed_at := "2021-06-06T00:00:00Z"
    commitsResult := Except.error ApiError.notFound
    branchesResult := Except.error ApiError.notFound
    subscribersResult := Except.error ApiError.notFound
    contributorsResult := Except.error ApiError.notFound }

/-- A fork every API call about which raises a non-404 error (network or
auth failure). -/
def exOtherFork : Fork :=
  { owner_login := "carol"
    name := "flaky"
    html_url := "https://github.com/carol/flaky"
    stargazers_count := 4
    forks_count := 0
    open_issues_count := 2
    updated_at := "2022-01-01T00:00:00Z"
    pushed_at := "2022-02-02T00:00:00Z"
    commitsResult := Except.error ApiError.other
    branchesResult := Except.error ApiError.other
    subscribersResult := Except.error ApiError.other
    contributorsResult := Except.error ApiError.other }

/-- A fork all of whose commit messages already appear upstream: the real
`fnm` has nothing to report for it and survives it. -/
def exCleanFork : Fork :=
  { owner_login := "dora"
    name := "mirror"
    html_url := "https://github.com/dora/mirror"
    stargazers_count := 1
    forks_count := 0
    open_issues_count := 0
    updated_at := "2020-03-04T00:00:00Z"
    pushed_at := "2020-03-05T00:00:00Z"
    commitsResult := Except.ok [{ message := "m", html_url := "u9" }]
    branchesResult := Except.ok ["main"]
    subscribersResult := Except.ok 2
    contributorsResult := Except.ok [1] }

/-! ## Lemmas about the `fnm` commit loop -/

/-- The inner loop survives a fork exactly when every one of its commit
messages is an upstream message; any missing message makes it reach one of
the malformed echoes and crash. -/
theorem fnmCommitsLoop_eq (repoMessage : List String) :
    ∀ commits : List Commit,
    fnmCommitsLoop repoMessage commits =
      if ∀ c ∈ commits, c.message ∈ repoMessage then FnmOutcome.completed
      else FnmOutcome.echoCrash
  | [] => by simp [fnmCommitsLoop]
  | c :: cs => by
    have ih := fnmCommitsLoop_eq repoMessage cs
    simp only [fnmCommitsLoop]
    by_cases hm : c.message ∈ repoMessage
    · rw [if_pos hm, ih]
      by_cases hall : ∀ x ∈ cs, x.message ∈ repoMessage
      · rw [if_pos hall, if_pos]
        intro x hx
        rcases List.mem_cons.mp hx with rfl | hx'
        · exact hm
        · exact hall x hx'
      · rw [if_neg hall, if_neg]
        intro hcons
        exact hall fun x hx => hcons x (List.mem_cons_of_mem _ hx)
    · rw [if_neg hm, if_neg]
      intro hcons
      exact hm (hcons c (List.mem_cons_self _ _))

/-- A run all of whose forks either 404 (recovered with a notice) or have
nothing to report finishes normally. -/
theorem fnmFold_completes (repoMessage : List String) :
    ∀ forks : List Fork,
    (∀ f ∈ forks, f.commitsResult = Except.error ApiError.notFound ∨
      ∃ cs, f.commitsResult = Except.ok cs ∧
        fnmCommitsLoop repoMessage cs = FnmOutcome.completed) →
    (fnmFold repoMessage forks).2 = FnmOutcome.completed
  | [], _ => rfl
  | fork :: rest, h => by
    have ih := fnmFold_completes repoMessage rest
      (fun f hf => h f (List.mem_cons_of_mem _ hf))
    rcases h fork (List.mem_cons_self _ _) with h404 | ⟨cs, hok, hloop⟩
    · simp [fnmFold, h404, ih]
    · simp [fnmFold, hok, hloop, ih]

/-! ## Claims about `fnm` -/

/-- C1, code evidence: at upstream history `exUpstream` (messages `["m"]`)
the fork `exForkDup` has two commits carrying the non-upstream message
`"x"`, yet `fnm` prints no entry at all — the first reported commit reaches
line 71's malformed `click.echo` and the run aborts with `AttributeError`
before printing anything, so the missing message appears zero times in the
output, not once per distinct message as claimed. -/
theorem fnm_missing_message_never_printed :
    fnm exUpstream [exForkDup] = ([], FnmOutcome.echoCrash) ∧
    countEntriesWithMessage (fnm exUpstream [exForkDup]).1 "x" = 0 ∧
    countEntriesWithMessage (fnm exUpstream [exForkDup]).1 "x" ≠ 1 :=
  ⟨rfl, rfl, by decide⟩

/-- C5, code evidence: the sole reporting decision is line 68's message
test.  The inner loop survives a fork exactly when every commit message is
an upstream message — so the decision to report (and hence to crash at the
echo) depends on message equality only, a commit's URL or hash playing no
part — but no commit is ever successfully reported: at the failing input the
run aborts at the first report attempt, with no entry in the output. -/
theorem fnm_report_decision_message_only :
    (∀ (repoMessage : List String) (commits : List Commit),
      fnmCommitsLoop repoMessage commits = FnmOutcome.completed ↔
        ∀ c ∈ commits, c.message ∈ repoMessage) ∧
    fnm exUpstream [exForkDup] = ([], FnmOutcome.echoCrash) ∧
    entriesOf (fnm exUpstream [exForkDup]).1 = [] := by
  refine ⟨?_, rfl, rfl⟩
  intro repoMessage commits
  rw [fnmCommitsLoop_eq]
  by_cases h : ∀ c ∈ commits, c.message ∈ repoMessage
  · simp [h]
  · simp [h]

/-! ## Error-handling lemmas -/

/-- A fork whose secondary call 404s contributes only its notice to
`topCollect`; the rest of the fork list is processed unchanged. -/
theorem topCollect_cons_notFound (sort : SortKey) (bad : Fork)
    (rest : List Fork)
    (h : slowResult sort bad = some (Except.error ApiError.notFound)) :
    topCollect sort (bad :: rest) =
      (topCollect sort rest).map (fun p => (p.1, topNotice bad :: p.2)) := by
  have hb : buildRow sort bad = Except.ok none := by rw [buildRow_eq, h]
  simp [topCollect, hb]

/-- If no fork's secondary call raises a non-404 error, the `top` fork loop
finishes normally. -/
theorem topCollect_ok_of_no_other (sort : SortKey) :
    ∀ forks : List Fork,
    (∀ f ∈ forks, slowResult sort f ≠ some (Except.error ApiError.other)) →
    ∃ p, topCollect sort forks = Except.ok p
  | [], _ => ⟨([], []), rfl⟩
  | fork :: rest, h => by
    have hrest := fun f hf => h f (List.mem_cons_of_mem _ hf)
    obtain ⟨p, hp⟩ := topCollect_ok_of_no_other sort rest hrest
    cases hsr : slowResult sort fork with
    | none =>
      have hb : buildRow sort fork = Except.ok (some (defProp fork none)) := by
        rw [buildRow_eq, hsr]
      exact ⟨(defProp fork none :: p.1, p.2),
        by simp [topCollect, hb, hp, Except.map]⟩
    | some r =>
      cases r with
      | ok n =>
        have hb : buildRow sort fork =
            Except.ok (some (defProp fork (some n))) := by
          rw [buildRow_eq, hsr]
        exact ⟨(defProp fork (some n) :: p.1, p.2),
          by simp [topCollect, hb, hp, Except.map]⟩
      | error e =>
        cases e with
        | notFound =>
          have hb : buildRow sort fork = Except.ok none := by
            rw [buildRow_eq, hsr]
          exact ⟨(p.1, topNotice fork :: p.2),
            by simp [topCollect, hb, hp, Except.map]⟩
        | other => exact absurd hsr (h fork (List.mem_cons_self _ _))

/-- C3: in both commands, a fork whose retrieval raises a remote 404 is
skipped with a printed notice — it contributes exactly its notice and
nothing else to the output — and the remaining forks are processed exactly
as they would be without it; in particular the 404 itself never aborts the
run (the outcome is whatever the remaining forks alone produce). -/
theorem notFound_fork_skipped (repoCommits : List Commit) (bad : Fork)
    (rest : List Fork) (sort : SortKey)
    (hfnm : bad.commitsResult = Except.error ApiError.notFound)
    (htop : slowResult sort bad = some (Except.error ApiError.notFound)) :
    fnm repoCommits (bad :: rest) =
      (FnmLine.notFound bad.html_url :: (fnm repoCommits rest).1,
        (fnm repoCommits rest).2) ∧
    topCollect sort (bad :: rest) =
      (topCollect sort rest).map (fun p => (p.1, topNotice bad :: p.2)) := by
  constructor
  · simp [fnm, fnmFold, hfnm]
  · exact topCollect_cons_notFound sort bad rest htop

theorem notFound_fork_skipped_witness :
    fnm exUpstream (exBadFork :: [exCleanFork]) =
      (FnmLine.notFound exBadFork.html_url ::
        (fnm exUpstream [exCleanFork]).1,
        (fnm exUpstream [exCleanFork]).2) ∧
    topCollect SortKey.branches (exBadFork :: [exCleanFork]) =
      (topCollect SortKey.branches [exCleanFork]).map
        (fun p => (p.1, topNotice exBadFork :: p.2)) :=
  notFound_fork_skipped exUpstream exBadFork [exCleanFork] SortKey.branches
    rfl rfl

/-- C6: the only error kind either command catches and recovers from is the
remote 404 of an individual fork, recovered by skipping it with a notice;
every other exception propagates uncaught and aborts the command — a
non-404 API error in either command, and likewise the `AttributeError` that
`fnm`'s malformed `click.echo` calls raise, which the `except NotFoundError`
clause does not catch.  Runs free of such exceptions complete, 404s
included. -/
theorem only_notFound_recovered (repoCommits : List Commit) (sort : SortKey)
    (bad404 badOther reportable : Fork) (commits : List Commit)
    (rest rest2 rest3 rest4 rest5 : List Fork)
    (okFnmForks okTopForks : List Fork)
    (h404 : bad404.commitsResult = Except.error ApiError.notFound)
    (hother : badOther.commitsResult = Except.error ApiError.other)
    (hrep : reportable.commitsResult = Except.ok commits)
    (hmiss : ¬ ∀ c ∈ commits, c.message ∈ repoCommits.map Commit.message)
    (htop404 : slowResult sort bad404 = some (Except.error ApiError.notFound))
    (htopother : slowResult sort badOther = some (Except.error ApiError.other))
    (hokfnm : ∀ f ∈ okFnmForks,
      f.commitsResult = Except.error ApiError.notFound ∨
      ∃ cs, f.commitsResult = Except.ok cs ∧
        fnmCommitsLoop (repoCommits.map Commit.message) cs =
          FnmOutcome.completed)
    (hoktop : ∀ f ∈ okTopForks,
      slowResult sort f ≠ some (Except.error ApiError.other)) :
    fnm repoCommits (bad404 :: rest) =
      (FnmLine.notFound bad404.html_url :: (fnm repoCommits rest).1,
        (fnm repoCommits rest).2) ∧
    fnm repoCommits (badOther :: rest2) = ([], FnmOutcome.apiOther) ∧
    fnm repoCommits (reportable :: rest3) = ([], FnmOutcome.echoCrash) ∧
    topCollect sort (bad404 :: rest4) =
      (topCollect sort rest4).map
        (fun p => (p.1, topNotice bad404 :: p.2)) ∧
    topCollect sort (badOther :: rest5) = Except.error ApiError.other ∧
    (fnm repoCommits okFnmForks).2 = FnmOutcome.completed ∧
    (∃ p, topCollect sort okTopForks = Except.ok p) := by
  refine ⟨by simp [fnm, fnmFold, h404], by simp [fnm, fnmFold, hother], ?_,
    topCollect_cons_notFound sort bad404 rest4 htop404, ?_,
    fnmFold_completes _ okFnmForks hokfnm,
    topCollect_ok_of_no_other sort okTopForks hoktop⟩
  · have hloop : fnmCommitsLoop (repoCommits.map Commit.message) commits =
        FnmOutcome.echoCrash := by
      rw [fnmCommitsLoop_eq, if_neg hmiss]
    simp [fnm, fnmFold, hrep, hloop]
  · have hb : buildRow sort badOther = Except.error ApiError.other := by
      rw [buildRow_eq, htopother]
    simp [topCollect, hb]

theorem only_notFound_recovered_witness :
    fnm exUpstream (exBadFork :: []) =
      (FnmLine.notFound exBadFork.html_url :: (fnm exUpstream []).1,
        (fnm exUpstream []).2) ∧
    fnm exUpstream (exOtherFork :: []) = ([], FnmOutcome.apiOther) ∧
    fnm exUpstream (exForkDup :: []) = ([], FnmOutcome.echoCrash) ∧
    topCollect SortKey.watchers (exBadFork :: []) =
      (topCollect SortKey.watchers []).map
        (fun p => (p.1, topNotice exBadFork :: p.2)) ∧
    topCollect SortKey.watchers (exOtherFork :: []) =
      Except.error ApiError.other ∧
    (fnm exUpstream [exBadFork, exCleanFork]).2 = FnmOutcome.completed ∧
    (∃ p, topCollect SortKey.watchers [exForkDup, exBadFork] = Except.ok p) :=
  only_notFound_recovered exUpstream SortKey.watchers exBadFork exOtherFork
    exForkDup
    [{ message := "x", html_url := "u1" }, { message := "x", html_url := "u2" }]
    [] [] [] [] [] [exBadFork, exCleanFork] [exForkDup, exBadFork]
    rfl rfl rfl (by decide) rfl rfl
    (by
      intro f hf
      simp only [List.mem_cons, List.not_mem_nil, or_false] at hf
      rcases hf with rfl | rfl
      · exact Or.inl rfl
      · exact Or.inr ⟨[{ message := "m", html_url := "u9" }], rfl, rfl⟩)
    (by
      intro f hf
      simp only [List.mem_cons, List.not_mem_nil, or_false] at hf
      rcases hf with rfl | rfl
      · simp [slowResult, exForkDup]
      · simp [slowResult, exBadFork])

/-- C9: for a fast sort key (stars, forks, open issues, last-updated,
last-pushed) `top` issues no secondary call and never skips a fork: the
candidate list is the base row of every fork of the listing, in listing
order, whatever the secondary-call fields hold. -/
theorem top_fast_key_keeps_every_fork (sort : SortKey) (forks : List Fork)
    (hfast : isSlow sort = false) :
    topCollect sort forks =
      Except.ok (forks.map (fun f => defProp f none), []) := by
  induction forks with
  | nil => rfl
  | cons f fs ih =>
    have hb : buildRow sort f = Except.ok (some (defProp f none)) := by
      cases sort
      case watchers => exact absurd hfast (by decide)
      case commits => exact absurd hfast (by decide)
      case branches => exact absurd hfast (by decide)
      all_goals rfl
    simp [topCollect, hb, ih, Except.map]

theorem top_fast_key_keeps_every_fork_witness :
    topCollect SortKey.stargazers_count [exForkDup, exBadFork, exOtherFork] =
      Except.ok
        ([exForkDup, exBadFork, exOtherFork].map (fun f => defProp f none),
          []) :=
  top_fast_key_keeps_every_fork SortKey.stargazers_count
    [exForkDup, exBadFork, exOtherFork] rfl

/-- C2: the rows `top` renders are the humanized prefix of the candidate
rows sorted descending by the chosen key: their pre-humanization key values
are pairwise non-increasing, at most `rows` of them are rendered, and the
`--rows` flag defaults to 10. -/
theorem top_sorted_and_truncated (sort : SortKey) (rows : Nat)
    (hf : String → String) (forks : List Fork) (repos : List RepoRow)
    (notices : List String)
    (hc : topCollect sort forks = Except.ok (repos, notices)) :
    topOutput sort rows hf forks =
      Except.ok
        (((sortDesc sort repos).take rows).map (humanizeRow hf), notices) ∧
    List.Pairwise (fun a b => keyGeB sort a b = true)
      ((sortDesc sort repos).take rows) ∧
    (((sortDesc sort repos).take rows).map (humanizeRow hf)).length ≤ rows ∧
    defaultRows = 10 := by
  refine ⟨by simp [topOutput, hc, Except.map], ?_, ?_, rfl⟩
  · exact List.Pairwise.sublist (List.take_sublist rows _)
      (sortDesc_pairwise sort repos)
  · rw [List.length_map, List.length_take]
    exact Nat.min_le_left _ _

theorem top_sorted_and_truncated_witness :
    topOutput SortKey.stargazers_count 1 id [exForkDup, exBadFork] =
      Except.ok
        (((sortDesc SortKey.stargazers_count
            [defProp exForkDup none, defProp exBadFork none]).take 1).map
          (humanizeRow id), []) ∧
    List.Pairwise (fun a b => keyGeB SortKey.stargazers_count a b = true)
      ((sortDesc SortKey.stargazers_count
        [defProp exForkDup none, defProp exBadFork none]).take 1) ∧
    (((sortDesc SortKey.stargazers_count
        [defProp exForkDup none, defProp exBadFork none]).take 1).map
      (humanizeRow id)).length ≤ 1 ∧
    defaultRows = 10 :=
  top_sorted_and_truncated SortKey.stargazers_count 1 id [exForkDup, exBadFork]
    [defProp exForkDup none, defProp exBadFork none] [] rfl

/-- C10: the `top` sort is stable with respect to the fork listing: two rows
with equal values of the chosen key keep, in the sorted list the ranked
output is a prefix of, the relative order they had in the candidate list. -/
theorem top_sort_stable (sort : SortKey) (repos : List RepoRow)
    (a b : RepoRow) (hkey : keyVal sort a = keyVal sort b)
    (hsub : List.Sublist [a, b] repos) :
    List.Sublist [a, b] (sortDesc sort repos) := by
  have hab : keyGeB sort a b = true := by
    unfold keyGeB
    rw [hkey]
    exact KeyVal.le_refl _
  exact List.sublist_mergeSort (keyGeB_trans sort) (keyGeB_total sort)
    (by simp [List.pairwise_cons, hab]) hsub

/-- Two candidate rows with equal star counts, in listing order. -/
def exRowA : RepoRow :=
  { html_url := "https://github.com/alice/proj"
    stargazers_count := 7
    forks_count := 1
    open_issues_count := 0
    updated_at := "2020-01-02T00:00:00Z"
    pushed_at := "2020-01-03T00:00:00Z"
    appended := none }

def exRowB : RepoRow :=
  { html_url := "https://github.com/bob/proj"
    stargazers_count := 7
    forks_count := 5
    open_issues_count := 2
    updated_at := "2021-01-02T00:00:00Z"
    pushed_at := "2021-01-03T00:00:00Z"
    appended := none }

theorem top_sort_stable_witness :
    List.Sublist [exRowA, exRowB]
      (sortDesc SortKey.stargazers_count [exRowA, exRowB]) :=
  top_sort_stable SortKey.stargazers_count [exRowA, exRowB] exRowA exRowB rfl
    (List.Sublist.refl _)

/-- C7: the rendered table has exactly the six fixed columns (URL, stars,
forks, open issues, last update, pushed at), and one extra column named
after the sort key exactly for the three slow keys — watchers, commits and
branches, the keys that are not among the fixed columns; no extra column for
the five fast keys. -/
theorem top_headers_exact :
    fixedHeaders =
      ["URL", "Stars", "Forks", "Open Issues", "Last update", "Pushed At"] ∧
    topHeaders SortKey.stargazers_count = fixedHeaders ∧
    topHeaders SortKey.forks_count = fixedHeaders ∧
    topHeaders SortKey.open_issues_count = fixedHeaders ∧
    topHeaders SortKey.updated_at = fixedHeaders ∧
    topHeaders SortKey.pushed_at = fixedHeaders ∧
    topHeaders SortKey.watchers = fixedHeaders ++ ["Watchers"] ∧
    topHeaders SortKey.commits = fixedHeaders ++ ["Commits"] ∧
    topHeaders SortKey.branches = fixedHeaders ++ ["Branches"] :=
  ⟨rfl, rfl, rfl, rfl, rfl, rfl, rfl, rfl, rfl⟩

/-- C8: the date-humanization applied to each of the first `rows` sorted
forks (line 155, `fork._replace(...)`) rewrites exactly the `updated_at` and
`pushed_at` fields; URL, stars, forks, open issues and the optional slow
metric keep their fetched values. -/
theorem humanize_only_dates (sort : SortKey) (rows : Nat)
    (hf : String → String) (forks : List Fork) :
    topOutput sort rows hf forks =
      (topCollect sort forks).map
        (fun p => (((sortDesc sort p.1).take rows).map (humanizeRow hf), p.2)) ∧
    ∀ r : RepoRow,
      (humanizeRow hf r).updated_at = hf r.updated_at ∧
      (humanizeRow hf r).pushed_at = hf r.pushed_at ∧
      (humanizeRow hf r).html_url = r.html_url ∧
      (humanizeRow hf r).stargazers_count = r.stargazers_count ∧
      (humanizeRow hf r).forks_count = r.forks_count ∧
      (humanizeRow hf r).open_issues_count = r.open_issues_count ∧
      (humanizeRow hf r).appended = r.appended :=
  ⟨rfl, fun _ => ⟨rfl, rfl, rfl, rfl, rfl, rfl, rfl⟩⟩

/-- A GitHub service in which `owner/name` resolves to a repository whose
history is `exUpstream` and whose only fork is `exForkDup`. -/
def exGh : String → String → GhRepo :=
  fun _ _ => { commitsList := exUpstream, forksList := [exForkDup] }

/-- C4, code evidence: line 55 stores the repo-name *string* (`repo`) in the
context's `repository` slot, not the repository object fetched on line 50 —
so `fnm`'s `repo_ctx.repository.commits()` (line 61) finds no `commits`
attribute even though the fetched repository has a commit history. -/
theorem cli_ctx_repository_is_name_string :
    (cliBuildCtx exGh "owner" "name").repository = RepoField.nameStr "name" ∧
    (∀ r : GhRepo,
      (cliBuildCtx exGh "owner" "name").repository ≠ RepoField.repoObj r) ∧
    ctxRepositoryCommits (cliBuildCtx exGh "owner" "name").repository = none ∧
    (exGh "owner" "name").commitsList = exUpstream := by
  refine ⟨rfl, ?_, rfl, rfl⟩
  intro r h
  exact RepoField.noConfusion h
